import Mathlib

/-!
Verification of the image-upload server (`src/server.js`): the upload-and-persist
pipeline (validation, storage naming, metadata insertion) and the listing query.
Strings are modelled as `List Char`; JavaScript's millisecond clock `Date.now()`
is an explicit `Nat` parameter; the filesystem and the metadata store are explicit
state components threaded through the handlers.
-/

namespace ImageServer

/-- Character-list form of a string literal. -/
abbrev Str := List Char

/-! ### String utilities (substring test, lowercasing, `path.extname`) -/

/-- Boolean test for a contiguous occurrence of `pat` inside `s`; this is the
semantics of an unanchored JavaScript regex alternation of literal words applied
via `.test(s)`. -/
def hasSub (pat : Str) : Str → Bool
  | [] => pat.isEmpty
  | c :: rest => pat.isPrefixOf (c :: rest) || hasSub pat rest

/-- Suffix of `s` starting at the last dot of `s`, or `none` when `s` has no dot. -/
def afterLastDot? : Str → Option Str
  | [] => none
  | c :: rest =>
    match afterLastDot? rest with
    | some e => some e
    | none => if c = '.' then some (c :: rest) else none

/-- Node's `path.extname`: the suffix from the last dot, except that a dot in the
first position (hidden-file convention) yields the empty extension. -/
def extname (s : Str) : Str :=
  match s with
  | [] => []
  | _ :: rest =>
    match afterLastDot? rest with
    | some e => e
    | none => []

/-- JavaScript `String.prototype.toLowerCase` restricted to the characters used here. -/
def toLowerStr (s : Str) : Str := s.map Char.toLower

/-! ### Decimal rendering of the timestamp (JavaScript number-to-string coercion) -/

/-- Character for a single decimal digit. -/
def digitChar (n : Nat) : Char := Char.ofNat (48 + n)

/-- Fuel-driven decimal rendering; `fuel` bounds the recursion depth so the
definition is structural and kernel-reducible. -/
def natCharsAux : Nat → Nat → Str
  | 0, _ => []
  | fuel + 1, n =>
    if n < 10 then [digitChar n]
    else natCharsAux fuel (n / 10) ++ [digitChar (n % 10)]

/-- Decimal rendering of a natural number, most significant digit first; this is
how `Date.now() + extension` coerces the timestamp to a string. -/
def natChars (n : Nat) : Str := natCharsAux (n + 1) n

/-! ### Storage naming (`multer.diskStorage` filename callback) -/

/-- Storage name assigned to an accepted file: the millisecond timestamp rendered
in decimal, followed by the original filename's extension
(`Date.now() + path.extname(file.originalname)`). -/
def storageName (t : Nat) (originalname : Str) : Str :=
  natChars t ++ extname originalname

/-! ### Per-file validation (`fileFilter`) -/

/-- One candidate file of a multipart request: form field name, client-supplied
original filename, declared content type, and payload size in bytes. -/
structure Part where
  fieldname : Str
  originalname : Str
  mimetype : Str
  size : Nat
deriving DecidableEq

/-- Alternatives of the regex literal `/jpeg|jpg|png|gif/`. -/
def filetypes : List Str :=
  [("jpeg").toList, ("jpg").toList, ("png").toList, ("gif").toList]

/-- Unanchored regex alternation test: some alternative occurs in `s`. -/
def regexTest (pats : List Str) (s : Str) : Bool :=
  pats.any (fun p => hasSub p s)

/-- The `fileFilter` of `src/server.js`: the lowercased extension of the original
name and the declared mimetype must each pass the unanchored regex test. -/
def fileFilter (f : Part) : Bool :=
  regexTest filetypes (toLowerStr (extname f.originalname)) && regexTest filetypes f.mimetype

/-! ### The multipart middleware (`multer({...}).array('images', 10)`)

The configuration — `fileFilter`, the 2 MiB `fileSize` limit, the `images` field
name and the cap of 10 files — is taken from `src/server.js`. The surrounding
engine behaviour is that of the multer middleware, which is an external
collaborator of the repository. Modelled from the spec: a part under another
field name is an unexpected-file error; a part whose payload exceeds the size
limit is a file-too-large error; a part rejected by `fileFilter` fails with the
filter's error; on any error the whole batch is rejected and the files already
written are removed again, so that no partial storage remains ("If any check
fails for any file in the batch, the entire batch is rejected"). -/

/-- Multer `limits.fileSize` from `src/server.js`: `2 * 1024 * 1024` bytes. -/
def fileSizeLimit : Nat := 2 * 1024 * 1024

/-- Maximum number of files per request, from `.array('images', 10)`. -/
def maxFileCount : Nat := 10

/-- The form field name expected by the middleware. -/
def fieldImages : Str := ("images").toList

/-- Errors the multer middleware can hand to the upload callback. -/
inductive UploadError where
  | unexpectedField
  | tooManyFiles
  | invalidType
  | fileTooLarge
deriving DecidableEq

/-- The `message` carried by each middleware error: multer's own messages for
its limit errors, and the message of the `Error` thrown by `fileFilter`. -/
def errMsg : UploadError → Str
  | UploadError.unexpectedField => ("Unexpected field").toList
  | UploadError.tooManyFiles => ("Too many files").toList
  | UploadError.invalidType => ("Nur JPG, PNG, GIF erlaubt!").toList
  | UploadError.fileTooLarge => ("File too large").toList

/-- One file written to the blob directory: its assigned storage name and the
request part whose bytes it holds. -/
structure StoredFile where
  filename : Str
  source : Part
deriving DecidableEq

/-- Sequential processing of the request's file parts: each part must arrive in
the `images` field, stay under the file-count cap, pass `fileFilter`, and fit in
the size limit; an accepted part is written under `storageName` of its naming
timestamp (`ts.getD k 0` models the `Date.now()` call for the `k`-th file). -/
def processParts (ts : List Nat) : List Part → Nat → Except UploadError (List StoredFile)
  | [], _ => Except.ok []
  | f :: rest, k =>
    if f.fieldname = fieldImages then
      if k < maxFileCount then
        if fileFilter f then
          if f.size ≤ fileSizeLimit then
            match processParts ts rest (k + 1) with
            | Except.ok files =>
              Except.ok ({ filename := storageName (ts.getD k 0) f.originalname,
                           source := f } :: files)
            | Except.error e => Except.error e
          else Except.error UploadError.fileTooLarge
        else Except.error UploadError.invalidType
      else Except.error UploadError.tooManyFiles
    else Except.error UploadError.unexpectedField

/-- Run the middleware on a whole request. -/
def runMulter (ts : List Nat) (parts : List Part) : Except UploadError (List StoredFile) :=
  processParts ts parts 0

instance {ε α : Type} [DecidableEq ε] [DecidableEq α] : DecidableEq (Except ε α) :=
  fun a b =>
    match a, b with
    | Except.ok x, Except.ok y =>
      if h : x = y then isTrue (by rw [h]) else isFalse (by simp [h])
    | Except.error x, Except.error y =>
      if h : x = y then isTrue (by rw [h]) else isFalse (by simp [h])
    | Except.ok _, Except.error _ => isFalse (by simp)
    | Except.error _, Except.ok _ => isFalse (by simp)

/-! ### Metadata store -/

/-- One stored metadata record (the Mongoose `Image` document). `seq` models the
record's insertion position in the collection. -/
structure ImageRecord where
  filename : Str
  path : Str
  uploadedAt : Nat
  seq : Nat
deriving DecidableEq

/-- Public path prefix used for every stored file. -/
def uploadsPrefix : Str := ("/uploads/").toList

/-- Records created by `Image.insertMany` for one accepted batch: one record per
file, in batch order, `path` being `/uploads/` plus the storage name, with
`uploadedAt` defaulted to the current time and consecutive insertion positions
starting at `base`. -/
def mkRecords (now : Nat) : Nat → List StoredFile → List ImageRecord
  | _, [] => []
  | base, f :: rest =>
    { filename := f.filename, path := uploadsPrefix ++ f.filename,
      uploadedAt := now, seq := base } :: mkRecords now (base + 1) rest

/-- Shared server-visible state: the blob directory and the metadata collection
(in insertion order). -/
structure ServerState where
  disk : List StoredFile
  store : List ImageRecord
deriving DecidableEq

/-- HTTP response of the upload route: a success JSON carrying `filePaths`, or
an error JSON with a status code and a message. -/
inductive Response where
  | json (status : Nat) (filePaths : List Str)
  | err (status : Nat) (message : Str)
deriving DecidableEq

/-- The `POST /upload` handler of the first server variant
(`src/server.js` lines 67-99): on a middleware error respond 400 with the error
message; on an empty file list respond 400; otherwise the accepted files are on
disk, `filePaths` is computed from `req.files`, and the batch is inserted —
responding 500 and keeping the written files if the insert fails (`dbOk` models
whether `insertMany` succeeds). -/
def postUploadV1 (ts : List Nat) (now : Nat) (dbOk : Bool) (st : ServerState)
    (parts : List Part) : Response × ServerState :=
  match runMulter ts parts with
  | Except.error e => (Response.err 400 (errMsg e), st)
  | Except.ok files =>
    if files.isEmpty then
      (Response.err 400 (("Keine Datei ausgewählt!").toList), st)
    else
      let st1 : ServerState := { st with disk := st.disk ++ files }
      let filePaths := files.map (fun f => uploadsPrefix ++ f.filename)
      if dbOk then
        let recs := mkRecords now st1.store.length files
        (Response.json 200 filePaths, { st1 with store := st1.store ++ recs })
      else
        (Response.err 500 (("Fehler beim Speichern der Bilder").toList), st1)

/-- The `POST /upload` handler of the second server variant
(`src/server.js` lines 185-205): identical pipeline, but `filePaths` is computed
from the records returned by `insertMany` rather than from `req.files`. -/
def postUploadV2 (ts : List Nat) (now : Nat) (dbOk : Bool) (st : ServerState)
    (parts : List Part) : Response × ServerState :=
  match runMulter ts parts with
  | Except.error e => (Response.err 400 (errMsg e), st)
  | Except.ok files =>
    if files.isEmpty then
      (Response.err 400 (("❌ Keine Datei ausgewählt!").toList), st)
    else
      let st1 : ServerState := { st with disk := st.disk ++ files }
      if dbOk then
        let recs := mkRecords now st1.store.length files
        (Response.json 200 (recs.map (fun r => r.path)), { st1 with store := st1.store ++ recs })
      else
        (Response.err 500 (("Fehler beim Speichern in der Datenbank").toList), st1)

/-! ### The listing query (`Image.find().sort({uploadedAt: -1})`)

Modelled from the spec: the document store is an external collaborator, and
§4.2 gives its contract — `listAll` returns all records ordered by `uploadedAt`
descending, ties broken by insertion order (stable). We realise that contract as
a stable insertion sort on the recency key. -/

/-- Stable descending insertion of one record: `x` is placed before the first
record whose key is not greater than `x`'s, so among equal keys the earlier
record stays first. -/
def insertRec (x : ImageRecord) : List ImageRecord → List ImageRecord
  | [] => [x]
  | a :: t =>
    if x.uploadedAt < a.uploadedAt then a :: insertRec x t else x :: a :: t

/-- The listing query: a stable sort of the collection by `uploadedAt`
descending (processed from the back so each record is inserted into the sorted
remainder of the later records). -/
def listAll : List ImageRecord → List ImageRecord
  | [] => []
  | a :: t => insertRec a (listAll t)

/-- Output order required of the listing: strictly more recent first, and among
equal timestamps the earlier-inserted record first. -/
def RecencyBefore (a b : ImageRecord) : Prop :=
  b.uploadedAt < a.uploadedAt ∨ (a.uploadedAt = b.uploadedAt ∧ a.seq < b.seq)

instance (a b : ImageRecord) : Decidable (RecencyBefore a b) :=
  inferInstanceAs (Decidable (_ ∨ _ ∧ _))

/-! ### Spec-side acceptance sets for claim C1 -/

/-- Extensions the specification allows, in `path.extname` form. -/
def allowedExts : List Str :=
  [(".jpg").toList, (".jpeg").toList, (".png").toList, (".gif").toList]

/-- Content types the specification allows. -/
def allowedMimes : List Str :=
  [("image/jpeg").toList, ("image/jpg").toList, ("image/png").toList, ("image/gif").toList]

/-- The acceptance condition as claimed: extension (case-insensitively) in the
allowed set and declared content type in the allowed set. -/
def ClaimedAccept (f : Part) : Prop :=
  toLowerStr (extname f.originalname) ∈ allowedExts ∧ f.mimetype ∈ allowedMimes

/-! ### Concrete inputs used by witnesses and counterexamples -/

/-- A well-formed candidate: a small JPEG under the `images` field. -/
def wPart : Part :=
  { fieldname := ("images").toList, originalname := ("a.jpg").toList,
    mimetype := ("image/jpeg").toList, size := 100 }

/-- The stored file produced for `wPart` when its naming timestamp is `5`. -/
def wFile : StoredFile := { filename := ('5' :: (".jpg").toList), source := wPart }

/-- A candidate with a disallowed extension and content type. -/
def wBadType : Part :=
  { fieldname := ("images").toList, originalname := ("a.txt").toList,
    mimetype := ("text/plain").toList, size := 100 }

/-- A well-typed candidate whose payload exceeds the 2 MiB limit. -/
def wBig : Part :=
  { fieldname := ("images").toList, originalname := ("b.jpg").toList,
    mimetype := ("image/jpeg").toList, size := 3 * 1024 * 1024 }

/-- A candidate sent under a form field other than `images`. -/
def wWrongField : Part :=
  { fieldname := ("file").toList, originalname := ("a.jpg").toList,
    mimetype := ("image/jpeg").toList, size := 100 }

/-- A candidate accepted by the code though the claimed acceptance set rejects
it: the unanchored regex finds `gif` inside both its extension and its content
type. -/
def cexRegexPart : Part :=
  { fieldname := ("images").toList, originalname := ("a.evilgif").toList,
    mimetype := ("text/gifplain").toList, size := 100 }

/-- Empty server state. -/
def wState0 : ServerState := { disk := [], store := [] }

/-- Two distinct candidate files with the same extension, for the naming
collision. -/
def cexFileA : Part :=
  { fieldname := ("images").toList, originalname := ("a.jpg").toList,
    mimetype := ("image/jpeg").toList, size := 100 }

/-- Second file of the naming-collision pair. -/
def cexFileB : Part :=
  { fieldname := ("images").toList, originalname := ("b.jpg").toList,
    mimetype := ("image/jpeg").toList, size := 200 }

/-- Concrete store records: one older record and a tie on `uploadedAt`. -/
def wRec1 : ImageRecord :=
  { filename := ("x").toList, path := ("/uploads/x").toList, uploadedAt := 5, seq := 0 }

/-- Second concrete record (newest timestamp, inserted before its tie). -/
def wRec2 : ImageRecord :=
  { filename := ("y").toList, path := ("/uploads/y").toList, uploadedAt := 9, seq := 1 }

/-- Third concrete record, tied with `wRec2` on `uploadedAt`. -/
def wRec3 : ImageRecord :=
  { filename := ("z").toList, path := ("/uploads/z").toList, uploadedAt := 9, seq := 2 }

/-! ### Lemmas on the substring test -/

theorem hasSub_iff (pat : Str) : ∀ s : Str, hasSub pat s = true ↔ pat <:+: s := by
  intro s
  induction s with
  | nil =>
    simp [hasSub, List.isEmpty_iff, List.infix_nil]
  | cons c rest ih =>
    simp only [hasSub, Bool.or_eq_true, List.isPrefixOf_iff_prefix, ih,
      List.infix_cons_iff]

theorem regexTest_iff (pats : List Str) (s : Str) :
    regexTest pats s = true ↔ ∃ p ∈ pats, p <:+: s := by
  simp [regexTest, List.any_eq_true, hasSub_iff]

/-! ### Lemmas on the decimal rendering -/

theorem digitChar_isDigit : ∀ n, n < 10 → (digitChar n).isDigit = true := by decide

theorem digitChar_injOn : ∀ m, m < 10 → ∀ n, n < 10 → digitChar m = digitChar n → m = n := by
  decide

theorem natCharsAux_digits :
    ∀ fuel n, n < fuel → ∀ c ∈ natCharsAux fuel n, c.isDigit = true := by
  intro fuel
  induction fuel with
  | zero => intro n h; omega
  | succ f ih =>
    intro n h c hc
    by_cases h10 : n < 10
    · simp only [natCharsAux, if_pos h10, List.mem_singleton] at hc
      exact hc ▸ digitChar_isDigit n h10
    · simp only [natCharsAux, if_neg h10, List.mem_append, List.mem_singleton] at hc
      rcases hc with hc | hc
      · exact ih (n / 10) (by omega) c hc
      · exact hc ▸ digitChar_isDigit (n % 10) (by omega)

theorem natChars_digits (n : Nat) : ∀ c ∈ natChars n, c.isDigit = true :=
  natCharsAux_digits (n + 1) n (by omega)

theorem natCharsAux_fuel_irrel (n : Nat) :
    ∀ f1 f2, n < f1 → n < f2 → natCharsAux f1 n = natCharsAux f2 n := by
  induction n using Nat.strong_induction_on with
  | _ n ih =>
    intro f1 f2 h1 h2
    match f1, f2 with
    | a + 1, b + 1 =>
      by_cases h10 : n < 10
      · simp [natCharsAux, h10]
      · simp only [natCharsAux, if_neg h10]
        rw [ih (n / 10) (by omega) a b (by omega) (by omega)]

theorem natChars_lt10 {n : Nat} (h : n < 10) : natChars n = [digitChar n] := by
  simp [natChars, natCharsAux, h]

theorem natChars_ge10 {n : Nat} (h : 10 ≤ n) :
    natChars n = natChars (n / 10) ++ [digitChar (n % 10)] := by
  show natCharsAux (n + 1) n = _
  simp only [natCharsAux, if_neg (by omega : ¬ n < 10)]
  rw [natCharsAux_fuel_irrel (n / 10) n (n / 10 + 1) (by omega) (by omega)]
  rfl

theorem natChars_ne_nil (n : Nat) : natChars n ≠ [] := by
  by_cases h : n < 10
  · simp [natChars_lt10 h]
  · simp [natChars_ge10 (by omega : 10 ≤ n)]

theorem natChars_inj : ∀ m n, natChars m = natChars n → m = n := by
  intro m
  induction m using Nat.strong_induction_on with
  | _ m ih =>
    intro n h
    by_cases hm : m < 10 <;> by_cases hn : n < 10
    · rw [natChars_lt10 hm, natChars_lt10 hn] at h
      exact digitChar_injOn m hm n hn (List.singleton_inj.mp h)
    · rw [natChars_lt10 hm, natChars_ge10 (by omega : 10 ≤ n)] at h
      have hl := congrArg List.length h
      simp only [List.length_append, List.length_cons, List.length_nil] at hl
      exact absurd (List.length_eq_zero.mp (by omega)) (natChars_ne_nil (n / 10))
    · rw [natChars_ge10 (by omega : 10 ≤ m), natChars_lt10 hn] at h
      have hl := congrArg List.length h
      simp only [List.length_append, List.length_cons, List.length_nil] at hl
      exact absurd (List.length_eq_zero.mp (by omega)) (natChars_ne_nil (m / 10))
    · rw [natChars_ge10 (by omega : 10 ≤ m), natChars_ge10 (by omega : 10 ≤ n)] at h
      obtain ⟨h1, h2⟩ := List.append_inj' h rfl
      have hq : m / 10 = n / 10 := ih (m / 10) (by omega) (n / 10) h1
      have hr : m % 10 = n % 10 :=
        digitChar_injOn (m % 10) (by omega) (n % 10) (by omega) (List.singleton_inj.mp h2)
      omega

/-! ### Lemmas on `extname` -/

theorem afterLastDot?_shape :
    ∀ s e, afterLastDot? s = some e → ∃ r, e = '.' :: r := by
  intro s
  induction s with
  | nil => intro e h; simp [afterLastDot?] at h
  | cons c rest ih =>
    intro e h
    simp only [afterLastDot?] at h
    cases hrec : afterLastDot? rest with
    | some e' =>
      rw [hrec] at h
      have he : e' = e := by injection h
      exact he ▸ ih e' hrec
    | none =>
      rw [hrec] at h
      by_cases hc : c = '.'
      · rw [if_pos hc] at h
        have he : c :: rest = e := by injection h
        exact ⟨rest, by rw [← he, hc]⟩
      · rw [if_neg hc] at h
        exact absurd h (by simp)

theorem extname_shape (s : Str) : extname s = [] ∨ ∃ r, extname s = '.' :: r := by
  match s with
  | [] => exact Or.inl rfl
  | c :: rest =>
    simp only [extname]
    cases h : afterLastDot? rest with
    | some e => exact Or.inr (afterLastDot?_shape rest e h)
    | none => exact Or.inl rfl

/-! ### The storage-name characterisation -/

theorem takeWhile_digits_storage (t : Nat) (e : Str)
    (he : e = [] ∨ ∃ r, e = '.' :: r) :
    (natChars t ++ e).takeWhile Char.isDigit = natChars t := by
  rw [List.takeWhile_append_of_pos (natChars_digits t)]
  rcases he with rfl | ⟨r, rfl⟩
  · simp
  · simp [List.takeWhile_cons]

theorem storageName_eq_iff (t1 t2 : Nat) (n1 n2 : Str) :
    storageName t1 n1 = storageName t2 n2 ↔ (t1 = t2 ∧ extname n1 = extname n2) := by
  constructor
  · intro h
    have hdig : natChars t1 = natChars t2 := by
      have h1 := takeWhile_digits_storage t1 (extname n1) (extname_shape n1)
      have h2 := takeWhile_digits_storage t2 (extname n2) (extname_shape n2)
      rw [← h1, ← h2]
      exact congrArg (List.takeWhile Char.isDigit) h
    have ht : t1 = t2 := natChars_inj t1 t2 hdig
    refine ⟨ht, ?_⟩
    have h2 : natChars t2 ++ extname n1 = natChars t2 ++ extname n2 := by
      unfold storageName at h
      rw [ht] at h
      exact h
    exact List.append_cancel_left h2
  · rintro ⟨rfl, hext⟩
    unfold storageName
    rw [hext]

/-! ### Lemmas on the middleware and handlers -/

theorem processParts_ok_valid (ts : List Nat) :
    ∀ (parts : List Part) (k : Nat) (files : List StoredFile),
      processParts ts parts k = Except.ok files →
      ∀ f ∈ parts, f.fieldname = fieldImages ∧ fileFilter f = true ∧ f.size ≤ fileSizeLimit := by
  intro parts
  induction parts with
  | nil =>
    intro k files _ f hf
    exact absurd hf (List.not_mem_nil f)
  | cons p rest ih =>
    intro k files h f hf
    unfold processParts at h
    by_cases h1 : p.fieldname = fieldImages
    · rw [if_pos h1] at h
      by_cases h2 : k < maxFileCount
      · rw [if_pos h2] at h
        by_cases h3 : fileFilter p = true
        · rw [if_pos h3] at h
          by_cases h4 : p.size ≤ fileSizeLimit
          · rw [if_pos h4] at h
            rcases List.mem_cons.mp hf with rfl | hf'
            · exact ⟨h1, h3, h4⟩
            · cases hrec : processParts ts rest (k + 1) with
              | ok files' => exact ih (k + 1) files' hrec f hf'
              | error e => rw [hrec] at h; exact Except.noConfusion h
          · rw [if_neg h4] at h; exact Except.noConfusion h
        · rw [if_neg h3] at h; exact Except.noConfusion h
      · rw [if_neg h2] at h; exact Except.noConfusion h
    · rw [if_neg h1] at h; exact Except.noConfusion h

theorem processParts_ok_sources (ts : List Nat) :
    ∀ (parts : List Part) (k : Nat) (files : List StoredFile),
      processParts ts parts k = Except.ok files →
      files.map (fun f => f.source) = parts := by
  intro parts
  induction parts with
  | nil =>
    intro k files h
    have hfiles : files = [] := by
      simp [processParts] at h
      exact h
    subst hfiles
    rfl
  | cons p rest ih =>
    intro k files h
    unfold processParts at h
    by_cases h1 : p.fieldname = fieldImages
    · rw [if_pos h1] at h
      by_cases h2 : k < maxFileCount
      · rw [if_pos h2] at h
        by_cases h3 : fileFilter p = true
        · rw [if_pos h3] at h
          by_cases h4 : p.size ≤ fileSizeLimit
          · rw [if_pos h4] at h
            cases hrec : processParts ts rest (k + 1) with
            | ok files' =>
              rw [hrec] at h
              have hfiles :
                  files = { filename := storageName (ts.getD k 0) p.originalname,
                            source := p } :: files' := by
                injection h with h
                exact h.symm
              subst hfiles
              simp only [List.map_cons]
              rw [ih (k + 1) files' hrec]
            | error e => rw [hrec] at h; exact Except.noConfusion h
          · rw [if_neg h4] at h; exact Except.noConfusion h
        · rw [if_neg h3] at h; exact Except.noConfusion h
      · rw [if_neg h2] at h; exact Except.noConfusion h
    · rw [if_neg h1] at h; exact Except.noConfusion h

theorem postUploadV1_rejects (ts : List Nat) (now : Nat) (dbOk : Bool)
    (st : ServerState) (parts : List Part)
    (h : ∃ f ∈ parts,
      ¬ (f.fieldname = fieldImages ∧ fileFilter f = true ∧ f.size ≤ fileSizeLimit)) :
    ∃ m, postUploadV1 ts now dbOk st parts = (Response.err 400 m, st) := by
  cases hr : runMulter ts parts with
  | error e =>
    refine ⟨errMsg e, ?_⟩
    unfold postUploadV1
    rw [hr]
  | ok files =>
    obtain ⟨f, hf, hbad⟩ := h
    exact absurd (processParts_ok_valid ts parts 0 files hr f hf) hbad

theorem mkRecords_map_path (now : Nat) :
    ∀ (files : List StoredFile) (base : Nat),
      (mkRecords now base files).map (fun r => r.path) =
        files.map (fun f => uploadsPrefix ++ f.filename) := by
  intro files
  induction files with
  | nil => intro base; rfl
  | cons f rest ih => intro base; simp [mkRecords, ih]

/-! ### Lemmas on the listing sort -/

theorem insertRec_perm (x : ImageRecord) :
    ∀ l : List ImageRecord, List.Perm (insertRec x l) (x :: l) := by
  intro l
  induction l with
  | nil => exact List.Perm.refl _
  | cons a t ih =>
    by_cases hlt : x.uploadedAt < a.uploadedAt
    · simp only [insertRec, if_pos hlt]
      exact (ih.cons a).trans (List.Perm.swap x a t)
    · simp only [insertRec, if_neg hlt]
      exact List.Perm.refl _

theorem mem_insertRec {x b : ImageRecord} {l : List ImageRecord} :
    b ∈ insertRec x l ↔ b = x ∨ b ∈ l := by
  rw [(insertRec_perm x l).mem_iff, List.mem_cons]

theorem listAll_perm : ∀ l : List ImageRecord, List.Perm (listAll l) l := by
  intro l
  induction l with
  | nil => exact List.Perm.refl _
  | cons a t ih => exact (insertRec_perm a (listAll t)).trans (ih.cons a)

theorem insertRec_pairwise :
    ∀ (x : ImageRecord) (l : List ImageRecord),
      (∀ b ∈ l, x.seq < b.seq) → l.Pairwise RecencyBefore →
      (insertRec x l).Pairwise RecencyBefore := by
  intro x l
  induction l with
  | nil => intro _ _; simp [insertRec]
  | cons a t ih =>
    intro hseq hp
    rcases List.pairwise_cons.mp hp with ⟨ha, ht⟩
    by_cases hlt : x.uploadedAt < a.uploadedAt
    · simp only [insertRec, if_pos hlt]
      refine List.pairwise_cons.mpr
        ⟨?_, ih (fun b hb => hseq b (List.mem_cons_of_mem a hb)) ht⟩
      intro b hb
      rcases mem_insertRec.mp hb with rfl | hb'
      · exact Or.inl hlt
      · exact ha b hb'
    · simp only [insertRec, if_neg hlt]
      refine List.pairwise_cons.mpr ⟨?_, hp⟩
      intro b hb
      rcases List.mem_cons.mp hb with rfl | hb'
      · rcases Nat.lt_or_ge b.uploadedAt x.uploadedAt with h2 | h2
        · exact Or.inl h2
        · exact Or.inr ⟨by omega, hseq b (List.mem_cons_self b t)⟩
      · have hab := ha b hb'
        have hxb : x.seq < b.seq := hseq b (List.mem_cons_of_mem a hb')
        rcases hab with h2 | ⟨heq, _⟩
        · exact Or.inl (by omega)
        · rcases Nat.lt_or_ge b.uploadedAt x.uploadedAt with h3 | h3
          · exact Or.inl h3
          · exact Or.inr ⟨by omega, hxb⟩

theorem listAll_pairwise :
    ∀ l : List ImageRecord,
      l.Pairwise (fun a b => a.seq < b.seq) → (listAll l).Pairwise RecencyBefore := by
  intro l
  induction l with
  | nil => intro _; simp [listAll]
  | cons a t ih =>
    intro h
    rcases List.pairwise_cons.mp h with ⟨ha, ht⟩
    exact insertRec_pairwise a (listAll t)
      (fun b hb => ha b ((listAll_perm t).mem_iff.mp hb)) (ih ht)

theorem postUploadV1_ok_insert (ts : List Nat) (now : Nat) (st : ServerState)
    (parts : List Part) (files : List StoredFile)
    (hok : runMulter ts parts = Except.ok files) (hne : files ≠ []) :
    postUploadV1 ts now true st parts =
      (Response.json 200 (files.map (fun f => uploadsPrefix ++ f.filename)),
       { disk := st.disk ++ files, store := st.store ++ mkRecords now st.store.length files }) := by
  unfold postUploadV1
  simp only [hok]
  rw [if_neg (fun hemp => hne (List.isEmpty_iff.mp hemp))]
  rfl

theorem postUploadV1_ok_dbfail (ts : List Nat) (now : Nat) (st : ServerState)
    (parts : List Part) (files : List StoredFile)
    (hok : runMulter ts parts = Except.ok files) (hne : files ≠ []) :
    postUploadV1 ts now false st parts =
      (Response.err 500 (("Fehler beim Speichern der Bilder").toList),
       { disk := st.disk ++ files, store := st.store }) := by
  unfold postUploadV1
  simp only [hok]
  rw [if_neg (fun hemp => hne (List.isEmpty_iff.mp hemp))]
  rfl

theorem postUploadV2_ok_insert (ts : List Nat) (now : Nat) (st : ServerState)
    (parts : List Part) (files : List StoredFile)
    (hok : runMulter ts parts = Except.ok files) (hne : files ≠ []) :
    postUploadV2 ts now true st parts =
      (Response.json 200 ((mkRecords now st.store.length files).map (fun r => r.path)),
       { disk := st.disk ++ files, store := st.store ++ mkRecords now st.store.length files }) := by
  unfold postUploadV2
  simp only [hok]
  rw [if_neg (fun hemp => hne (List.isEmpty_iff.mp hemp))]
  rfl

/-! ### Claims -/

/-- C1, counterexample: the per-file validation is not the claimed exact-set
acceptance. The file `a.evilgif` declared as `text/gifplain` passes `fileFilter`
(the unanchored regex finds `gif` in both strings), yet its extension is in
neither allowed set nor is its content type. -/
theorem c1_counterexample :
    ¬ (∀ f : Part, fileFilter f = true ↔ ClaimedAccept f) := by
  intro hclaim
  have hacc : ClaimedAccept cexRegexPart := (hclaim cexRegexPart).mp (by decide)
  have hno : ¬ (toLowerStr (extname cexRegexPart.originalname) ∈ allowedExts ∧
      cexRegexPart.mimetype ∈ allowedMimes) := by decide
  exact hno hacc

/-- C1, amended: per-file validation accepts a candidate iff its original
filename's lowercased extension contains one of `jpeg`, `jpg`, `png`, `gif` as a
contiguous substring and its declared content type contains one of them as a
contiguous substring (the unanchored regex `/jpeg|jpg|png|gif/` applied to
both); every file failing this check causes the upload to be rejected with a
400 validation error and leaves the server state unchanged. -/
theorem c1_filter_regex :
    (∀ f : Part, fileFilter f = true ↔
      ((∃ p ∈ filetypes, p <:+: toLowerStr (extname f.originalname)) ∧
       (∃ p ∈ filetypes, p <:+: f.mimetype))) ∧
    (∀ (ts : List Nat) (now : Nat) (dbOk : Bool) (st : ServerState)
       (parts : List Part) (f : Part), f ∈ parts → fileFilter f = false →
      ∃ m, postUploadV1 ts now dbOk st parts = (Response.err 400 m, st)) := by
  constructor
  · intro f
    unfold fileFilter
    rw [Bool.and_eq_true, regexTest_iff, regexTest_iff]
  · intro ts now dbOk st parts f hf hff
    refine postUploadV1_rejects ts now dbOk st parts ⟨f, hf, ?_⟩
    intro hcon
    rw [hcon.2.1] at hff
    exact Bool.noConfusion hff

/-- Witness for C1's amended theorem at concrete inputs: the valid JPEG part
satisfies both substring conditions, and a batch containing the `.txt` part is
rejected with a 400 error without state change. -/
theorem c1_filter_regex_witness :
    (fileFilter wPart = true ↔
      ((∃ p ∈ filetypes, p <:+: toLowerStr (extname wPart.originalname)) ∧
       (∃ p ∈ filetypes, p <:+: wPart.mimetype))) ∧
    (∃ m, postUploadV1 [5] 7 true wState0 [wBadType] = (Response.err 400 m, wState0)) :=
  ⟨c1_filter_regex.1 wPart,
   c1_filter_regex.2 [5] 7 true wState0 [wBadType] wBadType (by decide) (by decide)⟩

/-- C2, counterexample: two distinct candidate files named within the same
millisecond and sharing the `.jpg` extension receive the same storage name, so
the naming function does not make storage names of distinct files distinct. -/
theorem c2_counterexample :
    cexFileA ≠ cexFileB ∧
    storageName 17 cexFileA.originalname = storageName 17 cexFileB.originalname := by
  constructor <;> decide

/-- C2, amended: two storage names produced by the naming function are distinct
iff the naming timestamps differ or the original extensions differ; in
particular files named in the same millisecond with the same extension collide,
while any difference in the millisecond timestamp guarantees distinct names. -/
theorem c2_storage_name_distinct (t1 t2 : Nat) (n1 n2 : Str) :
    storageName t1 n1 ≠ storageName t2 n2 ↔ (t1 ≠ t2 ∨ extname n1 ≠ extname n2) := by
  constructor
  · intro h
    by_contra hc
    push_neg at hc
    exact h ((storageName_eq_iff t1 t2 n1 n2).mpr ⟨hc.1, hc.2⟩)
  · intro h heq
    rcases (storageName_eq_iff t1 t2 n1 n2).mp heq with ⟨ht, he⟩
    rcases h with h | h
    · exact h ht
    · exact h he

/-- C3: a batch containing a file that fails validation (bad type or oversized
payload) is rejected as a whole with a 400 validation error, and the server
state — blob directory and metadata store — is exactly the state before the
request: no partial storage, no inserted record. -/
theorem c3_invalid_batch_rejected (ts : List Nat) (now : Nat) (dbOk : Bool)
    (st : ServerState) (parts : List Part)
    (h : ∃ f ∈ parts, fileFilter f = false ∨ fileSizeLimit < f.size) :
    ∃ m, postUploadV1 ts now dbOk st parts = (Response.err 400 m, st) := by
  obtain ⟨f, hf, hbad⟩ := h
  refine postUploadV1_rejects ts now dbOk st parts ⟨f, hf, ?_⟩
  intro hcon
  rcases hbad with hb | hb
  · rw [hcon.2.1] at hb
    exact Bool.noConfusion hb
  · have := hcon.2.2
    omega

/-- Witness for C3: a batch holding the `.txt` file is rejected with a 400
error and the empty server state is unchanged. -/
theorem c3_invalid_batch_rejected_witness :
    ∃ m, postUploadV1 [5] 7 true wState0 [wPart, wBadType] = (Response.err 400 m, wState0) :=
  c3_invalid_batch_rejected [5] 7 true wState0 [wPart, wBadType]
    ⟨wBadType, by decide, Or.inl (by decide)⟩

/-- C4: for every accepted batch the response is 200 with `filePaths` listing,
in input order, `/uploads/` plus each file's assigned name; the number of paths
equals the number of input files, and the inserted records carry exactly those
paths. -/
theorem c4_success_filepaths (ts : List Nat) (now : Nat) (st : ServerState)
    (parts : List Part) (files : List StoredFile)
    (hok : runMulter ts parts = Except.ok files) (hne : files ≠ []) :
    postUploadV1 ts now true st parts =
      (Response.json 200 (files.map (fun f => uploadsPrefix ++ f.filename)),
       { disk := st.disk ++ files,
         store := st.store ++ mkRecords now st.store.length files }) ∧
    (files.map (fun f => uploadsPrefix ++ f.filename)).length = parts.length ∧
    (mkRecords now st.store.length files).map (fun r => r.path) =
      files.map (fun f => uploadsPrefix ++ f.filename) := by
  refine ⟨postUploadV1_ok_insert ts now st parts files hok hne, ?_,
    mkRecords_map_path now files st.store.length⟩
  · rw [List.length_map]
    have hsrc := processParts_ok_sources ts parts 0 files hok
    calc files.length
        = (files.map (fun f => f.source)).length := (List.length_map _ _).symm
      _ = parts.length := by rw [hsrc]

/-- Witness for C4 at a concrete accepted batch of one JPEG file. -/
theorem c4_success_filepaths_witness :
    postUploadV1 [5] 7 true wState0 [wPart] =
      (Response.json 200 ([wFile].map (fun f => uploadsPrefix ++ f.filename)),
       { disk := wState0.disk ++ [wFile],
         store := wState0.store ++ mkRecords 7 wState0.store.length [wFile] }) ∧
    ([wFile].map (fun f => uploadsPrefix ++ f.filename)).length = [wPart].length ∧
    (mkRecords 7 wState0.store.length [wFile]).map (fun r => r.path) =
      [wFile].map (fun f => uploadsPrefix ++ f.filename) :=
  c4_success_filepaths [5] 7 wState0 [wPart] [wFile] (by decide) (by decide)

/-- C5: for every store state whose records carry strictly increasing insertion
positions (any interleaving of inserts), the listing returns all stored records,
ordered with strictly more recent `uploadedAt` first and ties broken by
insertion order, hence in non-increasing `uploadedAt` order. -/
theorem c5_listing_order (s : List ImageRecord)
    (h : s.Pairwise (fun a b => a.seq < b.seq)) :
    List.Perm (listAll s) s ∧
    (listAll s).Pairwise RecencyBefore ∧
    (listAll s).Pairwise (fun a b => b.uploadedAt ≤ a.uploadedAt) := by
  refine ⟨listAll_perm s, listAll_pairwise s h, ?_⟩
  refine (listAll_pairwise s h).imp ?_
  intro a b hab
  rcases hab with h1 | ⟨h1, _⟩
  · omega
  · omega

/-- Witness for C5 on a concrete store with a timestamp tie. -/
theorem c5_listing_order_witness :
    List.Perm (listAll [wRec1, wRec2, wRec3]) [wRec1, wRec2, wRec3] ∧
    (listAll [wRec1, wRec2, wRec3]).Pairwise RecencyBefore ∧
    (listAll [wRec1, wRec2, wRec3]).Pairwise (fun a b => b.uploadedAt ≤ a.uploadedAt) :=
  c5_listing_order [wRec1, wRec2, wRec3] (by decide)

/-- C6: an otherwise valid single file of at most `2 * 1024 * 1024` bytes passes
the size check and is accepted by the middleware; any batch containing a file
larger than `2 * 1024 * 1024` bytes is rejected with a 400 error and an
unchanged server state, and when that oversized file is otherwise valid and
alone in the batch, the message is the middleware's size-limit message. -/
theorem c6_size_limit :
    (∀ (ts : List Nat) (f : Part), f.fieldname = fieldImages → fileFilter f = true →
      f.size ≤ 2 * 1024 * 1024 →
      runMulter ts [f] =
        Except.ok [{ filename := storageName (ts.getD 0 0) f.originalname, source := f }]) ∧
    (∀ (ts : List Nat) (now : Nat) (dbOk : Bool) (st : ServerState)
       (parts : List Part) (f : Part), f ∈ parts → 2 * 1024 * 1024 < f.size →
      ∃ m, postUploadV1 ts now dbOk st parts = (Response.err 400 m, st)) ∧
    (∀ (ts : List Nat) (now : Nat) (dbOk : Bool) (st : ServerState) (f : Part),
      f.fieldname = fieldImages → fileFilter f = true → 2 * 1024 * 1024 < f.size →
      postUploadV1 ts now dbOk st [f] =
        (Response.err 400 (errMsg UploadError.fileTooLarge), st)) := by
  refine ⟨?_, ?_, ?_⟩
  · intro ts f h1 h2 h3
    have h3' : f.size ≤ fileSizeLimit := h3
    unfold runMulter processParts
    rw [if_pos h1, if_pos (by decide : (0 : Nat) < maxFileCount), if_pos h2, if_pos h3']
    rfl
  · intro ts now dbOk st parts f hf hsz
    refine postUploadV1_rejects ts now dbOk st parts ⟨f, hf, ?_⟩
    intro hcon
    have := hcon.2.2
    have hlim : fileSizeLimit = 2 * 1024 * 1024 := rfl
    omega
  · intro ts now dbOk st f h1 h2 h3
    have h3' : ¬ f.size ≤ fileSizeLimit := by
      have hlim : fileSizeLimit = 2 * 1024 * 1024 := rfl
      omega
    unfold postUploadV1 runMulter processParts
    rw [if_pos h1, if_pos (by decide : (0 : Nat) < maxFileCount), if_pos h2, if_neg h3']

/-- Witness for C6: the small JPEG is accepted; the 3 MiB JPEG is rejected with
a 400 and, alone in a batch, with the size-limit message. -/
theorem c6_size_limit_witness :
    runMulter [5] [wPart] =
      Except.ok [{ filename := storageName (([5] : List Nat).getD 0 0) wPart.originalname,
                   source := wPart }] ∧
    (∃ m, postUploadV1 [5] 7 true wState0 [wBig] = (Response.err 400 m, wState0)) ∧
    postUploadV1 [5] 7 true wState0 [wBig] =
      (Response.err 400 (errMsg UploadError.fileTooLarge), wState0) :=
  ⟨c6_size_limit.1 [5] wPart (by decide) (by decide) (by decide),
   c6_size_limit.2.1 [5] 7 true wState0 [wBig] wBig (by decide) (by decide),
   c6_size_limit.2.2 [5] 7 true wState0 wBig (by decide) (by decide) (by decide)⟩

/-- C7: a `POST /upload` request with zero files is answered with the no-files
400 error and its message, and neither the blob directory nor the metadata
store is touched. -/
theorem c7_empty_batch (ts : List Nat) (now : Nat) (dbOk : Bool) (st : ServerState) :
    postUploadV1 ts now dbOk st [] =
      (Response.err 400 (("Keine Datei ausgewählt!").toList), st) := rfl

/-- C8: when the metadata insert of an accepted batch fails, the handler
responds 500, the files written for the batch remain on disk (the disk equals
the state immediately after the storage writes), and the metadata store is
unchanged. -/
theorem c8_db_failure_no_rollback (ts : List Nat) (now : Nat) (st : ServerState)
    (parts : List Part) (files : List StoredFile)
    (hok : runMulter ts parts = Except.ok files) (hne : files ≠ []) :
    postUploadV1 ts now false st parts =
      (Response.err 500 (("Fehler beim Speichern der Bilder").toList),
       { disk := st.disk ++ files, store := st.store }) :=
  postUploadV1_ok_dbfail ts now st parts files hok hne

/-- Witness for C8 at a concrete accepted batch whose insert fails. -/
theorem c8_db_failure_no_rollback_witness :
    postUploadV1 [5] 7 false wState0 [wPart] =
      (Response.err 500 (("Fehler beim Speichern der Bilder").toList),
       { disk := wState0.disk ++ [wFile], store := wState0.store }) :=
  c8_db_failure_no_rollback [5] 7 wState0 [wPart] [wFile] (by decide) (by decide)

/-- C9: the two server variants agree at the `/upload` success boundary — for
the same accepted batch and the same assigned filenames, the `filePaths` the
first variant computes from the request's files equals the `filePaths` the
second variant computes from the records returned by the batch insert. -/
theorem c9_variant_equivalence (ts : List Nat) (now : Nat) (st : ServerState)
    (parts : List Part) (files : List StoredFile)
    (hok : runMulter ts parts = Except.ok files) (hne : files ≠ []) :
    (postUploadV1 ts now true st parts).1 = (postUploadV2 ts now true st parts).1 := by
  rw [postUploadV1_ok_insert ts now st parts files hok hne,
    postUploadV2_ok_insert ts now st parts files hok hne]
  rw [mkRecords_map_path now files st.store.length]

/-- Witness for C9 at a concrete accepted batch of one JPEG file. -/
theorem c9_variant_equivalence_witness :
    (postUploadV1 [5] 7 true wState0 [wPart]).1 = (postUploadV2 [5] 7 true wState0 [wPart]).1 :=
  c9_variant_equivalence [5] 7 wState0 [wPart] [wFile] (by decide) (by decide)

/-- C10: a multipart request carrying a file under a form field other than
`images` is rejected with a 400 error and an unchanged server state — no
metadata record is created; for a single such file the response carries the
middleware's unexpected-file message. -/
theorem c10_wrong_field :
    (∀ (ts : List Nat) (now : Nat) (dbOk : Bool) (st : ServerState)
       (parts : List Part) (f : Part), f ∈ parts → f.fieldname ≠ fieldImages →
      ∃ m, postUploadV1 ts now dbOk st parts = (Response.err 400 m, st)) ∧
    (∀ (ts : List Nat) (now : Nat) (dbOk : Bool) (st : ServerState) (f : Part),
      f.fieldname ≠ fieldImages →
      postUploadV1 ts now dbOk st [f] =
        (Response.err 400 (errMsg UploadError.unexpectedField), st)) := by
  constructor
  · intro ts now dbOk st parts f hf hfield
    refine postUploadV1_rejects ts now dbOk st parts ⟨f, hf, ?_⟩
    intro hcon
    exact hfield hcon.1
  · intro ts now dbOk st f hfield
    unfold postUploadV1 runMulter processParts
    rw [if_neg hfield]

/-- Witness for C10: a file uploaded under the field `file` is rejected with a
400, and alone in a batch, with the unexpected-field message. -/
theorem c10_wrong_field_witness :
    (∃ m, postUploadV1 [5] 7 true wState0 [wWrongField] = (Response.err 400 m, wState0)) ∧
    postUploadV1 [5] 7 true wState0 [wWrongField] =
      (Response.err 400 (errMsg UploadError.unexpectedField), wState0) :=
  ⟨c10_wrong_field.1 [5] 7 true wState0 [wWrongField] wWrongField (by decide) (by decide),
   c10_wrong_field.2 [5] 7 true wState0 wWrongField (by decide)⟩

end ImageServer
